import Mathlib

/-!
Shallow embedding of `src/dicom_3d_app.py` (selvakarna/dicom_3d_app).

The program loads DICOM slices from a ZIP archive, a single uploaded `.dcm`
file, or a folder, stacks them into a 3-D numpy volume, renders the volume
with plotly, shows 2-D cross-sections, and exports the volume as NIfTI.

Conventions of the embedding:
* a decoded `pixel_array` is a `Grid`: an explicit `(height, width)` shape
  (numpy arrays carry their shape as metadata) plus the row-major rows;
* a volume (`np.array` of a list of 2-D arrays) is a `List Grid`;
* pydicom decoding is opaque (delegated to an external library), so an
  archive member / folder file carries the *result* of decoding it:
  `none` models a decode exception or a dataset without pixel data;
* DICOM pixel data is integral, and the threshold sliders produce `int`
  values, so array contents are `Int`; real-valued numpy results (the
  normalised display values, the render coordinates) are modelled over `ℚ`,
  on which the arithmetic the source performs is exact;
* Python string comparison and matching is modelled on the code-point
  lists underlying `String` (`String.data`), which matches Python
  semantics and computes by kernel reduction;
* a raised Python exception is `Except.error`.
-/

namespace DicomApp

/-! ### Python string primitives -/

/-- `s <= t` on Python strings: lexicographic comparison of code points. -/
def charListLe : List Char → List Char → Bool
  | [], _ => true
  | _ :: _, [] => false
  | a :: as, b :: bs =>
    if a.val < b.val then true
    else if b.val < a.val then false
    else charListLe as bs

/-- Python `a <= b` for strings. -/
def strLe (a b : String) : Bool := charListLe a.data b.data

/-- `s` is a suffix of `l`. -/
def isSuffix (s l : List Char) : Bool :=
  s == l.drop (l.length - s.length)

/-- Python `a.endswith(b)`. -/
def strEndsWith (a b : String) : Bool := isSuffix b.data a.data

/-- Python `a.startswith(p)`. -/
def strStartsWith (a p : String) : Bool := p.data == a.data.take p.data.length

/-! ### Data model -/

/-- A decoded 2-D DICOM slice (`ds.pixel_array`): a numpy array with its
shape `(height, width)` and its integer pixel rows. -/
structure Grid where
  height : Nat
  width : Nat
  rows : List (List Int)
deriving DecidableEq, Repr, Inhabited

/-- `g` really is an `height × width` array: as many rows as the recorded
height, each of the recorded width. -/
def Grid.wf (g : Grid) : Prop :=
  g.rows.length = g.height ∧ ∀ r ∈ g.rows, r.length = g.width

instance (g : Grid) : Decidable g.wf := by
  unfold Grid.wf; infer_instance

/-- A 3-D volume: the list of its 2-D depth-slices (leading axis first). -/
abbrev Volume := List Grid

/-- `v` is a well-formed `(d, h, w)` volume. -/
def Volume.shaped (v : Volume) (d h w : Nat) : Prop :=
  v.length = d ∧ ∀ g ∈ v, g.height = h ∧ g.width = w ∧ g.wf

instance (v : Volume) (d h w : Nat) : Decidable (v.shaped d h w) := by
  unfold Volume.shaped; infer_instance

/-! ### Loading (lines 30–60): enumeration, decoding, stacking -/

/-- One member of an uploaded ZIP archive: its name in `archive.namelist()`
and the result of `pydicom.dcmread(..., force=True)` on its bytes —
`some g` when the dataset has `PixelData` and decoding succeeds, `none`
when the member raises or lacks pixel data (both cases are skipped with a
warning, lines 41–44). -/
structure ZipEntry where
  name : String
  decoded : Option Grid
deriving DecidableEq, Repr

/-- One file of a local folder: its path and the result of
`pydicom.dcmread(f)` / `.pixel_array` (`none` models the caught exception,
line 56–57). -/
structure FolderFile where
  path : String
  decoded : Option Grid
deriving DecidableEq, Repr

/-- Insert into a `strLe`-sorted list of strings. -/
def insertSorted (s : String) : List String → List String
  | [] => [s]
  | t :: ts => if strLe s t then s :: t :: ts else t :: insertSorted s ts

/-- Python `sorted` on a list of strings (insertion sort; Python's sort is
stable, and on equal strings stability is unobservable). -/
def sortNames (l : List String) : List String :=
  l.foldr insertSorted []

/-- Line 33: `sorted([f for f in archive.namelist() if not f.endswith("/")])`
— every non-directory member name, sorted; there is **no** extension
filter. -/
def enumerate_zip (archive : List ZipEntry) : List String :=
  sortNames ((archive.map ZipEntry.name).filter
    (fun f => !(strEndsWith f "/")))

/-- Line 50: `sorted(glob.glob(os.path.join(folder, "*.dcm")))` — names
matching the `*.dcm` glob pattern (`*` does not match a leading dot, so
dot-files are skipped), sorted. -/
def enumerate_folder (files : List FolderFile) : List String :=
  sortNames ((files.map FolderFile.path).filter
    (fun f => strEndsWith f ".dcm" && !(strStartsWith f ".")))

/-- `archive.open(file)` + decode: the decode result of the member named
`n` (first match, `none` if absent). -/
def decodeZip (archive : List ZipEntry) (n : String) : Option Grid :=
  (archive.find? (fun e => e.name == n)).bind ZipEntry.decoded

/-- Decode result of the folder file at path `n`. -/
def decodeFolder (files : List FolderFile) (n : String) : Option Grid :=
  (files.find? (fun e => e.path == n)).bind FolderFile.decoded

/-- Errors raised by the loaders (both surface as Python `ValueError`). -/
inductive LoadError where
  /-- Lines 46/59: `No valid DICOM slices ... found`. -/
  | emptyInput
  /-- `np.array` on 2-D arrays of inhomogeneous shape (numpy ≥ 1.24 raises
  `ValueError` on ragged input). -/
  | shapeMismatch
deriving DecidableEq, Repr

instance {ε α : Type} [DecidableEq ε] [DecidableEq α] :
    DecidableEq (Except ε α) := fun a b =>
  match a, b with
  | .ok x, .ok y =>
    if h : x = y then .isTrue (by rw [h]) else .isFalse (by simp [h])
  | .error x, .error y =>
    if h : x = y then .isTrue (by rw [h]) else .isFalse (by simp [h])
  | .ok _, .error _ => .isFalse (by simp)
  | .error _, .ok _ => .isFalse (by simp)

/-- `np.array(slices)` on a list of 2-D numpy arrays: succeeds (stacking
along a new leading axis) iff all arrays share one `(height, width)`. -/
def npStack (slices : List Grid) : Except LoadError Volume :=
  match slices with
  | [] => .ok []
  | g :: gs =>
    if gs.all (fun g2 => g2.height == g.height && g2.width == g.width) then
      .ok (g :: gs)
    else
      .error .shapeMismatch

/-- Lines 34–44: the successfully decoded slices, in enumeration order. -/
def zipSlices (archive : List ZipEntry) : List Grid :=
  (enumerate_zip archive).filterMap (decodeZip archive)

/-- Lines 30–47: `load_dicom_slices_from_zip`. -/
def load_dicom_slices_from_zip (archive : List ZipEntry) :
    Except LoadError Volume :=
  let slices := zipSlices archive
  if slices.length = 0 then .error .emptyInput else npStack slices

/-- Lines 51–57: the successfully decoded folder slices, in `sorted` order. -/
def folderSlices (files : List FolderFile) : List Grid :=
  (enumerate_folder files).filterMap (decodeFolder files)

/-- Lines 49–60: `load_dicom_slices_from_folder`. -/
def load_dicom_slices_from_folder (files : List FolderFile) :
    Except LoadError Volume :=
  let slices := folderSlices files
  if slices.length = 0 then .error .emptyInput else npStack slices

/-- Lines 163–164 (single `.dcm` upload): `np.expand_dims(ds.pixel_array,
axis=0)` — the lone decoded grid wrapped as a depth-1 volume. -/
def load_single_dcm (g : Grid) : Volume := [g]

/-! ### 3-D render (`show_3d_volume`, lines 63–97) -/

/-- `volume_np.flatten()`: the elements in row-major (C) order. -/
def flattenVolume (v : Volume) : List Int :=
  v.foldr (fun g acc => g.rows.foldr (fun r acc2 => r ++ acc2) acc) []

/-- `np.min` of an integer array; the `[]` case is unreachable in the
program (numpy raises on a zero-size reduction, and `show_3d_volume`
returns early unless `volume_np.size > 0`). -/
def npMinI : List Int → Int
  | [] => 0
  | x :: xs => xs.foldl min x

/-- `np.max` of an integer array (same conventions as `npMinI`). -/
def npMaxI : List Int → Int
  | [] => 0
  | x :: xs => xs.foldl max x

/-- `np.clip(v, lo, hi)` on integers: `minimum(maximum(v, lo), hi)`
(for `lo > hi` numpy returns `hi`, which this expression also does). -/
def npClipI (v lo hi : Int) : Int := min (max v lo) hi

/-- The `1e-5` constant of line 76, exact. -/
def eps : ℚ := 1 / 100000

/-- Lines 74–76: clip the flattened volume to the threshold window, then
rescale by the **observed** min/max of the clipped data:
`(values - np.min(values)) / (np.max(values) - np.min(values) + 1e-5)`. -/
def renderNormalize (values : List Int) (tmin tmax : Int) : List ℚ :=
  let vt := values.map (fun v => npClipI v tmin tmax)
  let m := npMinI vt
  let M := npMaxI vt
  vt.map (fun v : Int => ((v : ℚ) - (m : ℚ)) / ((M : ℚ) - (m : ℚ) + eps))

/-- `np.linspace(0, 1, n)`: `n = 0` gives `[]`, `n = 1` gives `[0]`,
otherwise `i / (n - 1)` for `i = 0, …, n-1`. -/
def linspace (n : Nat) : List ℚ :=
  if n ≤ 1 then List.replicate n 0
  else (List.range n).map (fun i => (i : ℚ) / ((n : ℚ) - 1))

/-- `arr.repeat(k)`: every element repeated `k` times in place. -/
def repeatEach (k : Nat) (l : List ℚ) : List ℚ :=
  l.foldr (fun a acc => List.replicate k a ++ acc) []

/-- `np.tile(arr, k)`: `k` concatenated copies of `arr`. -/
def tile (k : Nat) (l : List ℚ) : List ℚ :=
  (List.replicate k l).foldr (· ++ ·) []

/-- Line 78: `np.linspace(0, 1, W).repeat(H * D)` for a `(D, H, W)`
volume (`shape[2] = W`, `shape[1] * shape[0] = H * D`). -/
def coordX (D H W : Nat) : List ℚ := repeatEach (H * D) (linspace W)

/-- Line 79: `np.tile(np.linspace(0, 1, H), W * D)`. -/
def coordY (D H W : Nat) : List ℚ := tile (W * D) (linspace H)

/-- Line 80: `np.repeat(np.linspace(0, 1, D), H * W)`. -/
def coordZ (D H W : Nat) : List ℚ := repeatEach (H * W) (linspace D)

/-- Row-major flat index of voxel `(d, h, w)` in a `(D, H, W)` volume:
its position in `volume_np.flatten()`. -/
def flatIdx (H W d h w : Nat) : Nat := d * (H * W) + h * W + w

/-! ### Slice viewer (`normalize_slice` and `show_slice_views`,
lines 100–139) -/

/-- The elements of a 2-D array in row-major order. -/
def flatten2 (m : List (List Int)) : List Int :=
  m.foldr (fun r acc => r ++ acc) []

/-- Lines 100–104: `normalize_slice`.  `none` models the `ValueError`
numpy raises for a zero-size array at `slice_2d.max()` (unreachable in
the program: the main flow only renders volumes with `size > 0`).  On a
constant grid it returns zeros of the same shape (`np.zeros_like`,
`uint8`); otherwise `((v - min) / (max - min) * 255).astype(np.uint8)`,
an exact rational computed in float64 and truncated — modelled as the
exact floor, with the `uint8` cast's wrap-around written out (a no-op
here since the scaled value lies in `[0, 255]`). -/
def normalize_slice (m : List (List Int)) : Option (List (List Int)) :=
  if flatten2 m = [] then none
  else
    let mn := npMinI (flatten2 m)
    let mx := npMaxI (flatten2 m)
    if mx = mn then
      some (m.map (fun r => r.map (fun _ => 0)))
    else
      some (m.map (fun r => r.map
        (fun v => (⌊(((v : ℚ) - mn) / ((mx : ℚ) - mn)) * 255⌋) % 256)))

/-- Line 117: `volume_np[index, :, :]` — the `i`-th depth slice. -/
def axialSlice (v : Volume) (i : Nat) : List (List Int) :=
  (v.getD i default).rows

/-- Line 126: `volume_np[:, index, :]`. -/
def coronalSlice (v : Volume) (i : Nat) : List (List Int) :=
  v.map (fun g => g.rows.getD i [])

/-- Line 135: `volume_np[:, :, index]`. -/
def sagittalSlice (v : Volume) (i : Nat) : List (List Int) :=
  v.map (fun g => g.rows.map (fun r => r.getD i 0))

/-- Lines 115/124/133: the slider's upper bound `volume_np.shape[k] - 1`
for the chosen axis (`0 =` depth, `1 =` height, `2 =` width); the slider
only produces indices in `[0, maxIndex]`. -/
def maxIndex (v : Volume) : Nat → Nat
  | 0 => v.length - 1
  | 1 => (v.headD default).height - 1
  | _ => (v.headD default).width - 1

/-- The voxel `volume_np[d, h, w]` (0 outside the array). -/
def voxel (v : Volume) (d h w : Nat) : Int :=
  ((v.getD d default).rows.getD h []).getD w 0

/-- The element `m[a, b]` of a 2-D array (0 outside the array). -/
def entry2 (m : List (List Int)) (a b : Nat) : Int :=
  (m.getD a []).getD b 0

/-- `m` is an `h × w` 2-D array. -/
def shaped2 (m : List (List Int)) (h w : Nat) : Prop :=
  m.length = h ∧ ∀ r ∈ m, r.length = w

instance (m : List (List Int)) (h w : Nat) : Decidable (shaped2 m h w) := by
  unfold shaped2; infer_instance

/-! ### Export (`export_nifti`, lines 142–146) -/

/-- `np.int16` conversion of an integer: wrap-around modulo `2^16` into
`[-32768, 32767]`; no range check, out-of-range values wrap silently. -/
def toInt16 (v : Int) : Int := (v + 32768) % 65536 - 32768

/-- The 4×4 identity affine `np.eye(4)`. -/
def identity4 : List (List Int) :=
  [[1, 0, 0, 0], [0, 1, 0, 0], [0, 0, 1, 0], [0, 0, 0, 1]]

/-- What `nib.save` writes: the cast voxel data, the affine, and where. -/
structure ExportArtifact where
  data : List (List (List Int))
  affine : List (List Int)
  path : String
deriving DecidableEq, Repr

/-- Lines 142–146: `export_nifti` — cast the volume to `int16`, attach the
identity affine, write to the fixed path `exports/volume.nii.gz`
(overwriting any previous file there), and return that path. -/
def export_nifti (v : Volume) : ExportArtifact × String :=
  let art : ExportArtifact :=
    { data := v.map (fun g => g.rows.map (fun r => r.map toInt16))
      affine := identity4
      path := "exports/volume.nii.gz" }
  (art, art.path)

/-! ### Copy-vs-in-place: a store model for the display transforms

The claim that rendering never mutates the Volume is about aliasing, so it
is checked against a store model.  Every numpy operation the display code
performs (`np.clip` without an `out=` argument, `.flatten()`, the binary
`-`, `/`, `*` on arrays, `astype`, `np.zeros_like`) returns a **newly
allocated** array; the source contains no in-place array operation and
never rebinds `volume_np` / `volume_data`.  An operation therefore reads
existing arrays and appends its result to the store. -/

/-- A store of numpy arrays, addressed by allocation order. -/
abbrev Store := List (List ℚ)

/-- Allocate a fresh array; returns the store and the new reference. -/
def alloc (s : Store) (a : List ℚ) : Store × Nat := (s ++ [a], s.length)

/-- Read the array at reference `r`. -/
def readArr (s : Store) (r : Nat) : List ℚ := s.getD r []

/-- `np.clip` on rationals. -/
def npClipQ (v lo hi : ℚ) : ℚ := min (max v lo) hi

/-- `np.min` on rationals (same conventions as `npMinI`). -/
def npMinQ : List ℚ → ℚ
  | [] => 0
  | x :: xs => xs.foldl min x

/-- `np.max` on rationals. -/
def npMaxQ : List ℚ → ℚ
  | [] => 0
  | x :: xs => xs.foldl max x

/-- Lines 74–76 of `show_3d_volume` as store operations, with the volume's
flattened values held at reference `vol`: `np.clip` allocates
`volume_thresh`, `.flatten()` allocates a copy, and the subtract/divide
arithmetic allocates the normalised `values`; nothing writes to `vol`.
Returns the final store and the reference of the displayed values. -/
def show_3d_volume_norm (s : Store) (vol : Nat) (tmin tmax : ℚ) :
    Store × Nat :=
  let p1 := alloc s ((readArr s vol).map (fun v => npClipQ v tmin tmax))
  let p2 := alloc p1.1 (readArr p1.1 p1.2)
  let m := npMinQ (readArr p2.1 p2.2)
  let M := npMaxQ (readArr p2.1 p2.2)
  alloc p2.1 ((readArr p2.1 p2.2).map (fun v => (v - m) / (M - m + eps)))

/-- Lines 100–104 of `normalize_slice` as store operations on the slice at
reference `sl`: either branch allocates its result (`np.zeros_like`, or
the subtract/divide/scale/`astype` chain); nothing writes to `sl`. -/
def normalize_slice_prog (s : Store) (sl : Nat) : Store × Nat :=
  let a := readArr s sl
  if npMaxQ a = npMinQ a then
    alloc s (a.map (fun _ => 0))
  else
    let p1 := alloc s (a.map (fun v => v - npMinQ a))
    let p2 := alloc p1.1 ((readArr p1.1 p1.2).map
      (fun v => v / (npMaxQ a - npMinQ a)))
    let p3 := alloc p2.1 ((readArr p2.1 p2.2).map (fun v => v * 255))
    alloc p3.1 ((readArr p3.1 p3.2).map (fun v => ((⌊v⌋ % 256 : Int) : ℚ)))

/-! ### Main flow (lines 149–175) -/

/-- The uploaded file (`st.file_uploader`, line 26): its name, its
contents read as a ZIP archive, and the result of `pydicom.dcmread` on
the file itself (used by the single-`.dcm` branch). -/
structure UploadedFile where
  name : String
  zipContents : List ZipEntry
  dcmDecoded : Option Grid

/-- Lines 151–167: the volume obtained from an uploaded file: a `.zip`
name goes through the ZIP loader, a `.dcm` name through
`np.expand_dims(ds.pixel_array, axis=0)`; any caught exception leaves
`volume_data = None` (the `st.error` path). -/
def loadUploaded (u : UploadedFile) : Option Volume :=
  if strEndsWith u.name ".zip" then
    (load_dicom_slices_from_zip u.zipContents).toOption
  else if strEndsWith u.name ".dcm" then
    u.dcmDecoded.map load_single_dcm
  else none

/-- Lines 149–175: `if uploaded: ... elif folder_path: ...` — the main
dispatch; `folder_path` is truthy iff the text input is non-empty, and
`fs` maps a folder path to its directory listing. -/
def main_load (uploaded : Option UploadedFile) (folder_path : String)
    (fs : String → List FolderFile) : Option Volume :=
  match uploaded with
  | some u => loadUploaded u
  | none =>
    if folder_path ≠ "" then
      (load_dicom_slices_from_folder (fs folder_path)).toOption
    else none

/-! ### Helper lemmas -/

theorem mem_insertSorted {t s : String} {l : List String} :
    t ∈ insertSorted s l ↔ t = s ∨ t ∈ l := by
  induction l with
  | nil => simp [insertSorted]
  | cons a as ih =>
    unfold insertSorted
    split
    · simp [List.mem_cons]
    · simp only [List.mem_cons, ih]
      tauto

theorem mem_sortNames {t : String} {l : List String} :
    t ∈ sortNames l ↔ t ∈ l := by
  induction l with
  | nil => simp [sortNames]
  | cons a as ih =>
    show t ∈ insertSorted a (sortNames as) ↔ _
    rw [mem_insertSorted]
    simp [List.mem_cons, ih]

theorem foldl_min_le_init (xs : List Int) (a : Int) : xs.foldl min a ≤ a := by
  induction xs generalizing a with
  | nil => simp
  | cons x xs ih =>
    simpa using le_trans (ih (min a x)) (min_le_left a x)

theorem foldl_min_le_mem (xs : List Int) (a : Int) :
    ∀ x ∈ xs, xs.foldl min a ≤ x := by
  induction xs generalizing a with
  | nil => simp
  | cons y ys ih =>
    intro x hx
    rcases List.mem_cons.mp hx with h | h
    · subst h
      simpa using le_trans (foldl_min_le_init ys (min a x)) (min_le_right a x)
    · simpa using ih (min a y) x h

theorem foldl_min_mem (xs : List Int) (a : Int) :
    xs.foldl min a = a ∨ xs.foldl min a ∈ xs := by
  induction xs generalizing a with
  | nil => simp
  | cons y ys ih =>
    rcases ih (min a y) with h | h
    · rcases min_cases a y with ⟨e, _⟩ | ⟨e, _⟩
      · left; simp only [List.foldl_cons]; rw [h, e]
      · right; simp only [List.foldl_cons]; rw [h, e]
        exact List.mem_cons_self y ys
    · right; exact List.mem_cons_of_mem y (by simpa using h)

theorem foldl_max_le_init (xs : List Int) (a : Int) : a ≤ xs.foldl max a := by
  induction xs generalizing a with
  | nil => simp
  | cons x xs ih =>
    simpa using le_trans (le_max_left a x) (ih (max a x))

theorem foldl_max_le_mem (xs : List Int) (a : Int) :
    ∀ x ∈ xs, x ≤ xs.foldl max a := by
  induction xs generalizing a with
  | nil => simp
  | cons y ys ih =>
    intro x hx
    rcases List.mem_cons.mp hx with h | h
    · subst h
      simpa using le_trans (le_max_right a x) (foldl_max_le_init ys (max a x))
    · simpa using ih (max a y) x h

theorem foldl_max_mem (xs : List Int) (a : Int) :
    xs.foldl max a = a ∨ xs.foldl max a ∈ xs := by
  induction xs generalizing a with
  | nil => simp
  | cons y ys ih =>
    rcases ih (max a y) with h | h
    · rcases max_cases a y with ⟨e, _⟩ | ⟨e, _⟩
      · left; simp only [List.foldl_cons]; rw [h, e]
      · right; simp only [List.foldl_cons]; rw [h, e]
        exact List.mem_cons_self y ys
    · right; exact List.mem_cons_of_mem y (by simpa using h)

theorem npMinI_mem {l : List Int} (h : l ≠ []) : npMinI l ∈ l := by
  cases l with
  | nil => exact absurd rfl h
  | cons x xs =>
    rcases foldl_min_mem xs x with e | e
    · simp [npMinI, e]
    · exact List.mem_cons_of_mem x (by simpa [npMinI] using e)

theorem npMinI_le {l : List Int} : ∀ x ∈ l, npMinI l ≤ x := by
  cases l with
  | nil => simp
  | cons y ys =>
    intro x hx
    rcases List.mem_cons.mp hx with h | h
    · subst h; exact foldl_min_le_init ys x
    · exact foldl_min_le_mem ys y x h

theorem npMaxI_mem {l : List Int} (h : l ≠ []) : npMaxI l ∈ l := by
  cases l with
  | nil => exact absurd rfl h
  | cons x xs =>
    rcases foldl_max_mem xs x with e | e
    · simp [npMaxI, e]
    · exact List.mem_cons_of_mem x (by simpa [npMaxI] using e)

theorem le_npMaxI {l : List Int} : ∀ x ∈ l, x ≤ npMaxI l := by
  cases l with
  | nil => simp
  | cons y ys =>
    intro x hx
    rcases List.mem_cons.mp hx with h | h
    · subst h; exact foldl_max_le_init ys x
    · exact foldl_max_le_mem ys y x h

theorem filterMap_eq_map_of_all_some {α β : Type} (l : List α)
    (F : α → Option β) (g : α → β) (h : ∀ x ∈ l, F x = some (g x)) :
    l.filterMap F = l.map g := by
  induction l with
  | nil => simp
  | cons x xs ih =>
    rw [List.filterMap_cons, h x (List.mem_cons_self x xs)]
    simp only [List.map_cons]
    rw [ih (fun y hy => h y (List.mem_cons_of_mem x hy))]

theorem getD_lt {α : Type} (l : List α) (n : Nat) (h : n < l.length)
    (d : α) : l.getD n d = l[n] := by
  rw [List.getD_eq_getElem?_getD, List.getElem?_eq_getElem h]
  rfl

theorem getD_mem {α : Type} (l : List α) (n : Nat) (h : n < l.length)
    (d : α) : l.getD n d ∈ l := by
  rw [getD_lt l n h d]
  exact List.getElem_mem h

theorem getD_map_lt {α β : Type} (l : List α) (f : α → β) (n : Nat)
    (h : n < l.length) (d1 : α) (d2 : β) :
    (l.map f).getD n d2 = f (l.getD n d1) := by
  rw [List.getD_eq_getElem?_getD, List.getElem?_map,
    List.getD_eq_getElem?_getD, List.getElem?_eq_getElem h]
  rfl

theorem headD_eq_getD {α : Type} (l : List α) (d : α) :
    l.headD d = l.getD 0 d := by
  cases l <;> rfl

theorem readArr_append (s t : Store) (r : Nat) (h : r < s.length) :
    readArr (s ++ t) r = readArr s r := by
  unfold readArr
  rw [List.getD_append _ _ _ _ h]

theorem npStack_error_of_mismatch {slices : List Grid} {g1 g2 : Grid}
    (h1 : g1 ∈ slices) (h2 : g2 ∈ slices)
    (hne : (g1.height, g1.width) ≠ (g2.height, g2.width)) :
    npStack slices = .error .shapeMismatch := by
  cases slices with
  | nil => cases h1
  | cons g gs =>
    have hd : npStack (g :: gs) =
        if gs.all (fun g2 => g2.height == g.height && g2.width == g.width) then
          .ok (g :: gs)
        else .error .shapeMismatch := rfl
    rw [hd]
    cases hall : gs.all (fun g2 => g2.height == g.height && g2.width == g.width) with
    | false => simp
    | true =>
      exfalso
      have hx : ∀ x ∈ g :: gs, x.height = g.height ∧ x.width = g.width := by
        intro x hx
        rcases List.mem_cons.mp hx with h | h
        · subst h; exact ⟨rfl, rfl⟩
        · have := List.all_eq_true.mp hall x h
          simpa [Bool.and_eq_true, beq_iff_eq] using this
      have e1 := hx g1 h1
      have e2 := hx g2 h2
      exact hne (by rw [Prod.mk.injEq]; exact ⟨e1.1.trans e2.1.symm, e1.2.trans e2.2.symm⟩)

/-! ### Claim theorems -/

/-- C1: for every input batch containing two successfully decoded slices of
differing `(height, width)`, assembly fails with the shape-mismatch error
(numpy's `ValueError` on ragged stacking) and no volume — in particular no
partial volume — is ever returned; this holds for the ZIP loader and for the
folder loader. -/
theorem shape_mismatch_aborts_assembly :
    (∀ (archive : List ZipEntry) (g1 g2 : Grid),
      g1 ∈ zipSlices archive → g2 ∈ zipSlices archive →
      (g1.height, g1.width) ≠ (g2.height, g2.width) →
      load_dicom_slices_from_zip archive = .error .shapeMismatch) ∧
    (∀ (files : List FolderFile) (g1 g2 : Grid),
      g1 ∈ folderSlices files → g2 ∈ folderSlices files →
      (g1.height, g1.width) ≠ (g2.height, g2.width) →
      load_dicom_slices_from_folder files = .error .shapeMismatch) := by
  constructor
  · intro archive g1 g2 h1 h2 hne
    have hlen : ¬((zipSlices archive).length = 0) := by
      intro h0
      rw [List.length_eq_zero] at h0
      rw [h0] at h1
      cases h1
    simp only [load_dicom_slices_from_zip]
    rw [if_neg hlen]
    exact npStack_error_of_mismatch h1 h2 hne
  · intro files g1 g2 h1 h2 hne
    have hlen : ¬((folderSlices files).length = 0) := by
      intro h0
      rw [List.length_eq_zero] at h0
      rw [h0] at h1
      cases h1
    simp only [load_dicom_slices_from_folder]
    rw [if_neg hlen]
    exact npStack_error_of_mismatch h1 h2 hne

/-- Witness for C1: a concrete two-member archive whose decoded slices have
shapes `(1,1)` and `(1,2)` makes the ZIP loader fail with the shape-mismatch
error. -/
theorem shape_mismatch_aborts_assembly_witness :
    (⟨1, 1, [[5]]⟩ : Grid) ∈
      zipSlices [⟨"a.dcm", some ⟨1, 1, [[5]]⟩⟩, ⟨"b.dcm", some ⟨1, 2, [[5, 6]]⟩⟩] ∧
    (⟨1, 2, [[5, 6]]⟩ : Grid) ∈
      zipSlices [⟨"a.dcm", some ⟨1, 1, [[5]]⟩⟩, ⟨"b.dcm", some ⟨1, 2, [[5, 6]]⟩⟩] ∧
    load_dicom_slices_from_zip
      [⟨"a.dcm", some ⟨1, 1, [[5]]⟩⟩, ⟨"b.dcm", some ⟨1, 2, [[5, 6]]⟩⟩]
      = .error .shapeMismatch :=
  ⟨by decide, by decide,
    shape_mismatch_aborts_assembly.1 _ ⟨1, 1, [[5]]⟩ ⟨1, 2, [[5, 6]]⟩
      (by decide) (by decide) (by decide)⟩

/-- C2 counterexample: the ZIP enumerator has no extension filter.  The
archive whose sole member is `readme.txt` (not matching `.dcm`) is enumerated
as `["readme.txt"]` rather than `[]`, and since that member decodes, the
loader returns a volume instead of raising the empty-input error — both
conclusions of the claim fail at this input. -/
theorem enumerator_no_extension_filter_cex :
    enumerate_zip [⟨"readme.txt", some ⟨1, 1, [[7]]⟩⟩] = ["readme.txt"] ∧
    strEndsWith "readme.txt" ".dcm" = false ∧
    load_dicom_slices_from_zip [⟨"readme.txt", some ⟨1, 1, [[7]]⟩⟩]
      = .ok [⟨1, 1, [[7]]⟩] := by
  refine ⟨by decide, by decide, by decide⟩

/-- C2 (amended): the ZIP enumerator lists exactly the non-directory member
names (no extension filter); the folder enumerator lists exactly the names
matching the `*.dcm` glob (`.dcm` suffix, no leading dot); and when no
member decodes to a slice with pixel data, either loader raises the
empty-input error. -/
theorem enumerator_membership_and_empty_input :
    (∀ (archive : List ZipEntry) (n : String),
      n ∈ enumerate_zip archive ↔
        n ∈ archive.map ZipEntry.name ∧ strEndsWith n "/" = false) ∧
    (∀ (files : List FolderFile) (n : String),
      n ∈ enumerate_folder files ↔
        n ∈ files.map FolderFile.path ∧
          (strEndsWith n ".dcm" && !(strStartsWith n ".")) = true) ∧
    (∀ archive : List ZipEntry, (∀ e ∈ archive, e.decoded = none) →
      load_dicom_slices_from_zip archive = .error .emptyInput) ∧
    (∀ files : List FolderFile, (∀ e ∈ files, e.decoded = none) →
      load_dicom_slices_from_folder files = .error .emptyInput) := by
  refine ⟨?_, ?_, ?_, ?_⟩
  · intro archive n
    rw [enumerate_zip, mem_sortNames, List.mem_filter]
    simp [Bool.not_eq_true']
  · intro files n
    rw [enumerate_folder, mem_sortNames, List.mem_filter]
  · intro archive h
    have hz : zipSlices archive = [] := by
      apply List.filterMap_eq_nil_iff.mpr
      intro n _
      unfold decodeZip
      cases hf : archive.find? (fun e => e.name == n) with
      | none => rfl
      | some e =>
        have he : e ∈ archive := List.mem_of_find?_eq_some hf
        simp [h e he]
    simp [load_dicom_slices_from_zip, hz]
  · intro files h
    have hz : folderSlices files = [] := by
      apply List.filterMap_eq_nil_iff.mpr
      intro n _
      unfold decodeFolder
      cases hf : files.find? (fun e => e.path == n) with
      | none => rfl
      | some e =>
        have he : e ∈ files := List.mem_of_find?_eq_some hf
        simp [h e he]
    simp [load_dicom_slices_from_folder, hz]

/-- Witness for C2 (amended): an archive whose only member carries no pixel
data makes the ZIP loader raise the empty-input error. -/
theorem enumerator_membership_and_empty_input_witness :
    (∀ e ∈ [(⟨"a.dcm", none⟩ : ZipEntry)], e.decoded = none) ∧
    load_dicom_slices_from_zip [⟨"a.dcm", none⟩] = .error .emptyInput :=
  ⟨by decide, enumerator_membership_and_empty_input.2.2.1 _ (by decide)⟩

/-- C5: when every enumerated archive member decodes (N ≥ 1 of them, all of
one shape), the assembled volume is exactly the decoded grids of the
lexicographically sorted filenames, in that order — so its depth is N and
slice `i` comes from the `i`-th sorted filename; and a single-file `.dcm`
upload yields a depth-1 three-dimensional volume `(1, H, W)`, not a 2-D
grid. -/
theorem assembled_volume_depth_and_order :
    (∀ (archive : List ZipEntry) (f : String → Grid) (H W : Nat),
      enumerate_zip archive ≠ [] →
      (∀ n ∈ enumerate_zip archive, decodeZip archive n = some (f n)) →
      (∀ n ∈ enumerate_zip archive, (f n).height = H ∧ (f n).width = W) →
      load_dicom_slices_from_zip archive
        = .ok ((enumerate_zip archive).map f) ∧
      ((enumerate_zip archive).map f).length
        = (enumerate_zip archive).length) ∧
    (∀ g : Grid, g.wf → (load_single_dcm g).shaped 1 g.height g.width) := by
  constructor
  · intro archive f H W hne hdec hsh
    have hz : zipSlices archive = (enumerate_zip archive).map f :=
      filterMap_eq_map_of_all_some _ _ _ hdec
    refine ⟨?_, List.length_map _ _⟩
    have hlen : ¬((zipSlices archive).length = 0) := by
      rw [hz, List.length_map]
      intro h0
      exact hne (List.length_eq_zero.mp h0)
    simp only [load_dicom_slices_from_zip]
    rw [if_neg hlen, hz]
    cases hnames : enumerate_zip archive with
    | nil => exact absurd hnames hne
    | cons n ns =>
      have hmemn : n ∈ enumerate_zip archive := by
        rw [hnames]; exact List.mem_cons_self n ns
      have hsn := hsh n hmemn
      have hall : (ns.map f).all
          (fun g2 => g2.height == (f n).height && g2.width == (f n).width)
          = true := by
        apply List.all_eq_true.mpr
        intro x hx
        obtain ⟨m, hm, rfl⟩ := List.mem_map.mp hx
        have hsm := hsh m (by rw [hnames]; exact List.mem_cons_of_mem n hm)
        simp only [Bool.and_eq_true, beq_iff_eq]
        exact ⟨hsm.1.trans hsn.1.symm, hsm.2.trans hsn.2.symm⟩
      show npStack ((n :: ns).map f) = .ok ((n :: ns).map f)
      simp only [List.map_cons]
      have hd : npStack (f n :: ns.map f) =
          if (ns.map f).all
            (fun g2 => g2.height == (f n).height && g2.width == (f n).width)
          then .ok (f n :: ns.map f) else .error .shapeMismatch := rfl
      rw [hd, if_pos hall]
  · intro g hg
    refine ⟨rfl, ?_⟩
    intro g2 hg2
    rcases List.mem_cons.mp hg2 with h | h
    · subst h; exact ⟨rfl, rfl, hg⟩
    · cases h

/-- Witness for C5: a two-member archive uploaded with names out of order
(`b.dcm` before `a.dcm`) assembles into the volume holding `a.dcm`'s slice
first — depth 2, ordered by the lexicographic sort of the filenames. -/
theorem assembled_volume_depth_and_order_witness :
    load_dicom_slices_from_zip
      [⟨"b.dcm", some ⟨1, 1, [[2]]⟩⟩, ⟨"a.dcm", some ⟨1, 1, [[1]]⟩⟩]
      = .ok [⟨1, 1, [[1]]⟩, ⟨1, 1, [[2]]⟩] := by
  have h := (assembled_volume_depth_and_order.1
    [⟨"b.dcm", some ⟨1, 1, [[2]]⟩⟩, ⟨"a.dcm", some ⟨1, 1, [[1]]⟩⟩]
    (fun n => if n = "a.dcm" then ⟨1, 1, [[1]]⟩ else ⟨1, 1, [[2]]⟩) 1 1
    (by decide) (by decide) (by decide)).1
  exact h.trans (by decide)

/-- C7: `normalize_slice` on a constant-valued (nonempty) grid takes the
degenerate branch — no division happens — and returns the all-zero grid of
identical shape (`np.zeros_like`). -/
theorem normalize_slice_constant_zeros (m : List (List Int)) (c : Int)
    (hne : flatten2 m ≠ []) (hc : ∀ x ∈ flatten2 m, x = c) :
    normalize_slice m = some (m.map (fun r => r.map (fun _ => 0))) ∧
    (m.map (fun r => r.map (fun _ => (0 : Int)))).length = m.length ∧
    ∀ i : Nat,
      ((m.map (fun r => r.map (fun _ => (0 : Int)))).getD i []).length
        = (m.getD i []).length := by
  have e1 : npMinI (flatten2 m) = c := hc _ (npMinI_mem hne)
  have e2 : npMaxI (flatten2 m) = c := hc _ (npMaxI_mem hne)
  refine ⟨?_, List.length_map _ _, ?_⟩
  · simp only [normalize_slice]
    rw [if_neg hne, e1, e2, if_pos rfl]
  · intro i
    by_cases hi : i < m.length
    · rw [getD_map_lt m _ i hi [] [], List.length_map]
    · rw [List.getD_eq_default, List.getD_eq_default]
      · exact le_of_not_lt hi
      · rw [List.length_map]; exact le_of_not_lt hi

/-- Witness for C7: the constant 2×2 grid of threes normalises to the 2×2
zero grid. -/
theorem normalize_slice_constant_zeros_witness :
    flatten2 [[3, 3], [3, 3]] ≠ [] ∧
    normalize_slice [[3, 3], [3, 3]] = some [[0, 0], [0, 0]] :=
  ⟨by decide,
    ((normalize_slice_constant_zeros [[3, 3], [3, 3]] 3 (by decide)
      (by decide)).1).trans (by decide)⟩

/-- C8: the exporter casts every voxel to `int16` by wrap-around (no range
check, total on every input), attaches the identity 4×4 affine, writes to
the one fixed path `exports/volume.nii.gz` — the same for every volume, so
each call overwrites the previous file — and returns that path. -/
theorem export_nifti_int16_identity_affine (v : Volume) :
    (export_nifti v).2 = (export_nifti v).1.path ∧
    (export_nifti v).1.path = "exports/volume.nii.gz" ∧
    (export_nifti v).1.affine = identity4 ∧
    (export_nifti v).1.data
      = v.map (fun g => g.rows.map (fun r => r.map toInt16)) ∧
    (∀ x : Int, -32768 ≤ toInt16 x ∧ toInt16 x ≤ 32767) ∧
    (∀ x : Int, -32768 ≤ x → x ≤ 32767 → toInt16 x = x) := by
  refine ⟨rfl, rfl, rfl, rfl, ?_, ?_⟩
  · intro x
    unfold toInt16
    omega
  · intro x h1 h2
    unfold toInt16
    omega

/-- Witness for C8: a volume holding the out-of-range value 40000 exports to
the fixed path with the value wrapped, and the in-range value 12 is kept. -/
theorem export_nifti_int16_identity_affine_witness :
    (export_nifti [⟨1, 1, [[40000]]⟩]).1.path = "exports/volume.nii.gz" ∧
    toInt16 12 = 12 :=
  ⟨(export_nifti_int16_identity_affine [⟨1, 1, [[40000]]⟩]).2.1,
    (export_nifti_int16_identity_affine []).2.2.2.2.2 12 (by decide) (by decide)⟩

/-- C10: with a file uploaded and a non-empty folder path entered, the
volume comes from the uploaded file alone; the folder path and the
filesystem behind it contribute nothing (the `elif` branch is skipped). -/
theorem upload_wins_over_folder (u : UploadedFile) (fp : String)
    (fs fs2 : String → List FolderFile) (_hfp : fp ≠ "") :
    main_load (some u) fp fs = loadUploaded u ∧
    main_load (some u) fp fs = main_load (some u) "" fs2 :=
  ⟨rfl, rfl⟩

/-- C4 counterexample: at the grid whose flattened values are `[5]` with the
explicit clamp window `(0, 10)`, line 76 rescales by the observed min/max of
the clipped data (both 5), so the output element is `0`; the claimed formula
`(clip(v,min,max) − min) / (max − min + ε)` with the window bounds gives
`5 / (10 + 1e-5) = 500000/1000001 ≠ 0`. -/
theorem render_normalize_window_formula_cex :
    (renderNormalize (flattenVolume [⟨1, 1, [[5]]⟩]) 0 10).getD 0 0 = 0 ∧
    ((npClipI 5 0 10 : ℚ) - ((0 : Int) : ℚ))
        / (((10 : Int) : ℚ) - ((0 : Int) : ℚ) + eps)
      = 500000 / 1000001 ∧
    (0 : ℚ) ≠ 500000 / 1000001 := by
  have hclip : npClipI 5 0 10 = 5 := by decide
  refine ⟨?_, ?_, by norm_num⟩
  · show (renderNormalize [5] 0 10).getD 0 0 = 0
    simp only [renderNormalize, List.map_cons, List.map_nil, hclip,
      npMinI, npMaxI, List.foldl_nil]
    norm_num
  · rw [hclip]
    rw [eps]
    norm_num

/-- C4 (amended): for a nonempty flattened volume and a threshold window
`(tmin, tmax)` with `tmin ≤ tmax` lying inside the volume's observed value
range — the only windows the bounded sliders of lines 70–71 can produce —
the observed min/max of the clipped data coincide with the window bounds, so
the display normalisation equals the windowed formula
`(clip(v, tmin, tmax) − tmin) / (tmax − tmin + ε)`: every input value
outside the window is clipped to the boundary before scaling, and every
output value lies in `[0, 1]`.  (For windows outside the observed range the
code rescales by the observed clipped min/max instead, as the
counterexample shows.) -/
theorem render_normalize_observed_bounds (vol : List Int) (tmin tmax : Int)
    (hne : vol ≠ []) (hlo : npMinI vol ≤ tmin) (hhi : tmax ≤ npMaxI vol)
    (hord : tmin ≤ tmax) :
    renderNormalize vol tmin tmax
      = vol.map (fun v =>
          ((npClipI v tmin tmax : ℚ) - (tmin : ℚ))
            / ((tmax : ℚ) - (tmin : ℚ) + eps)) ∧
    ∀ q ∈ renderNormalize vol tmin tmax, 0 ≤ q ∧ q ≤ 1 := by
  have hvtne : vol.map (fun v => npClipI v tmin tmax) ≠ [] := by
    simp [hne]
  have hmem_lb : ∀ y ∈ vol.map (fun v => npClipI v tmin tmax), tmin ≤ y := by
    intro y hy
    obtain ⟨v, _, rfl⟩ := List.mem_map.mp hy
    exact le_min (le_max_right v tmin) hord
  have hmem_ub : ∀ y ∈ vol.map (fun v => npClipI v tmin tmax), y ≤ tmax := by
    intro y hy
    obtain ⟨v, _, rfl⟩ := List.mem_map.mp hy
    exact min_le_right _ _
  have hmn : npMinI (vol.map (fun v => npClipI v tmin tmax)) = tmin := by
    refine le_antisymm (npMinI_le _ ?_) (hmem_lb _ (npMinI_mem hvtne))
    refine List.mem_map.mpr ⟨npMinI vol, npMinI_mem hne, ?_⟩
    unfold npClipI
    rw [max_eq_right hlo, min_eq_left hord]
  have hmx : npMaxI (vol.map (fun v => npClipI v tmin tmax)) = tmax := by
    refine le_antisymm (hmem_ub _ (npMaxI_mem hvtne)) (le_npMaxI _ ?_)
    refine List.mem_map.mpr ⟨npMaxI vol, npMaxI_mem hne, ?_⟩
    unfold npClipI
    rw [max_eq_left (hord.trans hhi), min_eq_right hhi]
  have hren : renderNormalize vol tmin tmax
      = (vol.map (fun v => npClipI v tmin tmax)).map
          (fun y : Int => ((y : ℚ) - (tmin : ℚ))
            / ((tmax : ℚ) - (tmin : ℚ) + eps)) := by
    simp only [renderNormalize]
    rw [hmn, hmx]
  constructor
  · rw [hren, List.map_map]
    rfl
  · rw [hren]
    intro q hq
    obtain ⟨y, hy, rfl⟩ := List.mem_map.mp hq
    have hyl : (tmin : ℚ) ≤ (y : ℚ) := by exact_mod_cast hmem_lb y hy
    have hyu : (y : ℚ) ≤ (tmax : ℚ) := by exact_mod_cast hmem_ub y hy
    have heps : (0 : ℚ) < 1 / 100000 := by norm_num
    have hd : (0 : ℚ) < (tmax : ℚ) - (tmin : ℚ) + eps := by
      rw [eps]
      linarith
    constructor
    · apply div_nonneg (by linarith) (le_of_lt hd)
    · rw [div_le_one hd, eps]
      linarith

/-- Witness for C4 (amended): volume values `[0, 10]` with the slider window
`(2, 8)` — all outputs lie in `[0, 1]`. -/
theorem render_normalize_observed_bounds_witness :
    ([0, 10] : List Int) ≠ [] ∧ npMinI [0, 10] ≤ 2 ∧
    (8 : Int) ≤ npMaxI [0, 10] ∧ (2 : Int) ≤ 8 ∧
    ∀ q ∈ renderNormalize [0, 10] 2 8, 0 ≤ q ∧ q ≤ 1 :=
  ⟨by decide, by decide, by decide, by decide,
    (render_normalize_observed_bounds [0, 10] 2 8 (by decide) (by decide)
      (by decide) (by decide)).2⟩

/-- C6: for a `(D, H, W)` volume, the axial extraction at `i` is the `i`-th
depth-slice, of shape `(H, W)`; the coronal extraction fixes the second
axis, giving shape `(D, W)` with element `(d, b)` equal to voxel
`(d, i, b)`; the sagittal extraction fixes the third axis, giving shape
`(D, H)` with element `(d, a)` equal to voxel `(d, a, i)`; and each axis's
index slider is bounded by exactly `size_along_axis − 1`, so out-of-range
extraction is unreachable. -/
theorem slice_viewer_extraction (v : Volume) (D H W : Nat)
    (hv : v.shaped D H W) (hD : 0 < D) :
    maxIndex v 0 = D - 1 ∧ maxIndex v 1 = H - 1 ∧ maxIndex v 2 = W - 1 ∧
    (∀ i, i < D → shaped2 (axialSlice v i) H W ∧
      axialSlice v i = (v.getD i default).rows ∧
      ∀ a b, entry2 (axialSlice v i) a b = voxel v i a b) ∧
    (∀ i, i < H → shaped2 (coronalSlice v i) D W ∧
      ∀ d b, d < D → entry2 (coronalSlice v i) d b = voxel v d i b) ∧
    (∀ i, i < W → shaped2 (sagittalSlice v i) D H ∧
      ∀ d a, d < D → a < H → entry2 (sagittalSlice v i) d a = voxel v d a i) := by
  obtain ⟨hlen, hall⟩ := hv
  have hhead : v.headD default ∈ v := by
    rw [headD_eq_getD]
    exact getD_mem v 0 (by rw [hlen]; exact hD) default
  have hg := hall _ hhead
  refine ⟨?_, ?_, ?_, ?_, ?_, ?_⟩
  · show v.length - 1 = D - 1
    rw [hlen]
  · show (v.headD default).height - 1 = H - 1
    rw [hg.1]
  · show (v.headD default).width - 1 = W - 1
    rw [hg.2.1]
  · intro i hi
    have hgi := hall _ (getD_mem v i (by rw [hlen]; exact hi) default)
    refine ⟨⟨hgi.2.2.1.trans hgi.1, fun r hr => (hgi.2.2.2 r hr).trans hgi.2.1⟩,
      rfl, fun a b => rfl⟩
  · intro i hi
    constructor
    · refine ⟨by simp [coronalSlice, hlen], ?_⟩
      intro r hr
      obtain ⟨g2, hg2, rfl⟩ := List.mem_map.mp hr
      have h2 := hall g2 hg2
      have hil : i < g2.rows.length := by rw [h2.2.2.1, h2.1]; exact hi
      rw [getD_lt _ i hil]
      exact (h2.2.2.2 _ (List.getElem_mem hil)).trans h2.2.1
    · intro d b hd
      unfold entry2 coronalSlice voxel
      rw [getD_map_lt v _ d (by rw [hlen]; exact hd) default []]
  · intro i hi
    constructor
    · refine ⟨by simp [sagittalSlice, hlen], ?_⟩
      intro r hr
      obtain ⟨g2, hg2, rfl⟩ := List.mem_map.mp hr
      have h2 := hall g2 hg2
      rw [List.length_map]
      exact h2.2.2.1.trans h2.1
    · intro d a hd ha
      unfold entry2 sagittalSlice voxel
      rw [getD_map_lt v _ d (by rw [hlen]; exact hd) default []]
      have hga := hall _ (getD_mem v d (by rw [hlen]; exact hd) default)
      have hal : a < (v.getD d default).rows.length := by
        rw [hga.2.2.1, hga.1]; exact ha
      rw [getD_map_lt _ _ a hal [] 0]

/-- Witness for C6: extractions from a concrete `(2, 2, 2)` volume. -/
theorem slice_viewer_extraction_witness :
    Volume.shaped [⟨2, 2, [[1, 2], [3, 4]]⟩, ⟨2, 2, [[5, 6], [7, 8]]⟩]
      2 2 2 ∧
    shaped2 (coronalSlice [⟨2, 2, [[1, 2], [3, 4]]⟩, ⟨2, 2, [[5, 6], [7, 8]]⟩] 1)
      2 2 ∧
    entry2 (coronalSlice [⟨2, 2, [[1, 2], [3, 4]]⟩, ⟨2, 2, [[5, 6], [7, 8]]⟩] 1)
      1 0 = 7 := by
  have h := slice_viewer_extraction
    [⟨2, 2, [[1, 2], [3, 4]]⟩, ⟨2, 2, [[5, 6], [7, 8]]⟩] 2 2 2
    (by decide) (by decide)
  refine ⟨by decide, (h.2.2.2.2.1 1 (by decide)).1, ?_⟩
  rw [(h.2.2.2.2.1 1 (by decide)).2 1 0 (by decide)]
  decide

/-- C9: the display transforms never mutate the volume.  In the store model
(where, per numpy semantics, each of the operations in lines 74–76 and
100–104 allocates a fresh array), running the 3-D render normalisation or
the slice-view normalisation leaves the array at the volume's reference
bit-for-bit unchanged and returns a result at a *different* reference — a
derived copy — so the values later passed to the exporter are identical to
those produced at assembly. -/
theorem display_transforms_preserve_volume (s : Store) (vol : Nat)
    (tmin tmax : ℚ) (hvol : vol < s.length) :
    readArr (show_3d_volume_norm s vol tmin tmax).1 vol = readArr s vol ∧
    (show_3d_volume_norm s vol tmin tmax).2 ≠ vol ∧
    readArr (normalize_slice_prog s vol).1 vol = readArr s vol ∧
    (normalize_slice_prog s vol).2 ≠ vol := by
  refine ⟨?_, ?_, ?_, ?_⟩
  · simp only [show_3d_volume_norm, alloc]
    rw [readArr_append _ _ _ (by simp [List.length_append]; omega),
      readArr_append _ _ _ (by simp [List.length_append]; omega),
      readArr_append _ _ _ hvol]
  · simp only [show_3d_volume_norm, alloc]
    simp [List.length_append]
    omega
  · simp only [normalize_slice_prog, alloc]
    split
    · rw [readArr_append _ _ _ hvol]
    · rw [readArr_append _ _ _ (by simp [List.length_append]; omega),
        readArr_append _ _ _ (by simp [List.length_append]; omega),
        readArr_append _ _ _ (by simp [List.length_append]; omega),
        readArr_append _ _ _ hvol]
  · simp only [normalize_slice_prog, alloc]
    split
    · simp
      omega
    · simp [List.length_append]
      omega

/-- Witness for C9: a singleton store holding the flattened volume `[5]`. -/
theorem display_transforms_preserve_volume_witness :
    (0 : Nat) < ([[(5 : ℚ)]] : Store).length ∧
    readArr (show_3d_volume_norm [[(5 : ℚ)]] 0 1 2).1 0
      = readArr [[(5 : ℚ)]] 0 ∧
    readArr (normalize_slice_prog [[(5 : ℚ)]] 0).1 0 = readArr [[(5 : ℚ)]] 0 :=
  ⟨by simp,
    (display_transforms_preserve_volume [[(5 : ℚ)]] 0 1 2 (by simp)).1,
    (display_transforms_preserve_volume [[(5 : ℚ)]] 0 1 2 (by simp)).2.2.1⟩

/-- C3 (code bug): the render coordinates of lines 78–80 are not the
Cartesian product of the three axis ramps aligned with the row-major
flattened volume.  For a `(2, 2, 3)` volume, flattened positions
`0 = voxel (0,0,0)` and `2 = voxel (0,0,2)` differ only in the width index,
whose ramp values differ (`0` vs `1`), yet the code assigns the two voxels
the *same* coordinate triple: in particular the x-coordinate at flat
position 2 is `0`, not `width-ramp[2] = 1` as the claim requires (no
permutation of axes can repair this, since the triples collide). -/
theorem render_coordinates_not_cartesian :
    flatIdx 2 3 0 0 0 = 0 ∧ flatIdx 2 3 0 0 2 = 2 ∧
    (coordX 2 2 3).getD 2 0 = (coordX 2 2 3).getD 0 0 ∧
    (coordY 2 2 3).getD 2 0 = (coordY 2 2 3).getD 0 0 ∧
    (coordZ 2 2 3).getD 2 0 = (coordZ 2 2 3).getD 0 0 ∧
    (coordX 2 2 3).getD 2 0 = 0 ∧ (linspace 3).getD 2 0 = 1 ∧
    (coordX 2 2 3).length = 12 ∧ (coordY 2 2 3).length = 12 ∧
    (coordZ 2 2 3).length = 12 := by
  refine ⟨by decide, by decide, rfl, rfl, rfl, ?_, ?_, rfl, rfl, rfl⟩
  · show ((0 : Nat) : ℚ) / (((3 : Nat) : ℚ) - 1) = 0
    norm_num
  · show ((2 : Nat) : ℚ) / (((3 : Nat) : ℚ) - 1) = 1
    norm_num

/-- Witness for C10: dispatch at a concrete upload and folder path. -/
theorem upload_wins_over_folder_witness :
    ("/data/scans" : String) ≠ "" ∧
    main_load (some ⟨"a.dcm", [], some ⟨1, 1, [[5]]⟩⟩) "/data/scans"
        (fun _ => [⟨"zz.dcm", some ⟨1, 1, [[9]]⟩⟩])
      = loadUploaded ⟨"a.dcm", [], some ⟨1, 1, [[5]]⟩⟩ :=
  ⟨by decide,
    (upload_wins_over_folder ⟨"a.dcm", [], some ⟨1, 1, [[5]]⟩⟩ "/data/scans"
      (fun _ => [⟨"zz.dcm", some ⟨1, 1, [[9]]⟩⟩]) (fun _ => [])
      (by decide)).1⟩

end DicomApp

